import Mathlib

/-!
Shallow embedding of the core logic of the InvScrv2 repository
(src/utils/hub24_filter.py, src/utils/data_processor.py,
src/utils/formula_engine.py and the composite scorer of
src/pages/5_Data_Analysis.py), together with theorems settling the
specification claims about it.  Numeric cell values are modelled as
rationals (an exact model of the finite decimal data the claims are
about); missing values (pandas NaN) are modelled as `Option.none`.
-/

namespace InvScrv2

/-! Embedding of src/utils/hub24_filter.py, function filter_investments_by_apir.
A row is an association list from column name to cell string; a table is a
column-name list plus rows. -/

abbrev TRow := List (String × String)

def getCell (r : TRow) (c : String) : Option String :=
  (r.find? (fun p => p.1 == c)).map (fun p => p.2)

structure Table where
  cols : List String
  rows : List TRow
deriving DecidableEq

/-- Embeds filter_investments_by_apir (src/utils/hub24_filter.py lines 60-81).
The second component of the result records whether st.warning was called
(the only signal the function can emit besides returning a table). -/
def filter_investments_by_apir (df : Option Table) (apir_codes : List String) :
    Option Table × Bool :=
  match df with
  | none => (none, false)
  | some t =>
    if t.rows.isEmpty || apir_codes.isEmpty then (some t, false)
    else if !t.cols.contains "APIR Code" then (some t, true)
    else
      (some { t with rows := t.rows.filter (fun r =>
          match getCell r "APIR Code" with
          | some v => apir_codes.contains v
          | none => false) }, false)

/-! Embedding of the composite scorer of src/pages/5_Data_Analysis.py
(current_data_averages, calc_beta_diff, calc_sharpe_diff, calc_stdev_diff,
calc_composite_score, lines 113-221).  A record carries the grouping
category and the three scoring metrics. -/

structure Record where
  category : String
  beta : Option ℚ
  stddev : Option ℚ
  sharpe : Option ℚ
deriving DecidableEq

/-- Arithmetic mean of a list, missing when the list is empty (pandas
mean of an empty group is NaN). -/
def listMean (xs : List ℚ) : Option ℚ :=
  if xs.isEmpty then none else some (xs.sum / xs.length)

/-- groupby(category).mean(): the mean of the non-missing values of the
selected metric among the records of the given category (pandas mean skips
NaN), missing when no record of the category has a value. -/
def categoryMean (recs : List Record) (get : Record → Option ℚ) (cat : String) :
    Option ℚ :=
  listMean ((recs.filter (fun r => r.category == cat)).filterMap get)

/-- Embeds calc_beta_diff (5_Data_Analysis.py lines 133-144): None when the
fund has no beta or its category has no average, else category average
minus fund beta. -/
def calc_beta_diff (recs : List Record) (r : Record) : Option ℚ :=
  match r.beta with
  | none => none
  | some b =>
    match categoryMean recs (fun x => x.beta) r.category with
    | none => none
    | some m => some (m - b)

/-- Embeds calc_sharpe_diff (5_Data_Analysis.py lines 160-169): fund Sharpe
minus category average Sharpe. -/
def calc_sharpe_diff (recs : List Record) (r : Record) : Option ℚ :=
  match r.sharpe with
  | none => none
  | some s =>
    match categoryMean recs (fun x => x.sharpe) r.category with
    | none => none
    | some m => some (s - m)

/-- Embeds calc_stdev_diff (5_Data_Analysis.py lines 185-194): fund standard
deviation minus category average standard deviation. -/
def calc_stdev_diff (recs : List Record) (r : Record) : Option ℚ :=
  match r.stddev with
  | none => none
  | some sd =>
    match categoryMean recs (fun x => x.stddev) r.category with
    | none => none
    | some m => some (sd - m)

/-- Embeds calc_composite_score (5_Data_Analysis.py lines 204-215):
None when any differential is missing, else
(stdev_diff / 10) + sharpe_diff + beta_diff. -/
def calc_composite_score (recs : List Record) (r : Record) : Option ℚ :=
  match calc_stdev_diff recs r, calc_sharpe_diff recs r, calc_beta_diff recs r with
  | some sd, some sh, some bd => some (sd / 10 + sh + bd)
  | _, _, _ => none

/-- Modelled from the spec claim wording, to be compared with
calc_composite_score: the composite formula as the claim states it,
with the stddev term multiplied by minus one:
(stddev_diff / 10) * (-1) + sharpe_diff + beta_diff. -/
def specClaimedComposite (recs : List Record) (r : Record) : Option ℚ :=
  match calc_stdev_diff recs r, calc_sharpe_diff recs r, calc_beta_diff recs r with
  | some sd, some sh, some bd => some (sd / 10 * (-1) + sh + bd)
  | _, _, _ => none

/-- Record A of the spec example scenario: cat=X, stddev=10, sharpe=0.5, beta=1.0. -/
def exA : Record := { category := "X", beta := some 1, stddev := some 10, sharpe := some (1/2) }

/-- Record B of the spec example scenario: cat=X, stddev=20, sharpe=1.5, beta=0.8. -/
def exB : Record := { category := "X", beta := some (4/5), stddev := some 20, sharpe := some (3/2) }

/-- Record with a missing beta, used as a concrete instance for the
composite-nullity claim. -/
def exMissingBeta : Record :=
  { category := "X", beta := none, stddev := some 10, sharpe := some (1/2) }

/-- Concrete table for the platform-filter witnesses: three rows whose APIR
codes differ only in case or value. -/
def w5T : Table :=
  { cols := ["Name", "APIR Code"]
  , rows := [ [("Name", "Fund One"), ("APIR Code", "ABC123AU")]
            , [("Name", "Fund Two"), ("APIR Code", "abc123au")]
            , [("Name", "Fund Three"), ("APIR Code", "XYZ987AU")] ] }

/-- Concrete table without an APIR Code column. -/
def w4T : Table := { cols := ["Name"], rows := [[("Name", "Fund One")]] }

/-! Embedding of src/utils/data_processor.py.  Cells are modelled at the
stage where pandas holds them as strings (object dtype), which is the
form the column-cleaning code of load_and_process_csv operates on. -/

def REQUIRED_COLUMNS : List String :=
  ["Name", "APIR Code", "Morningstar Category", "3 Years Annualised (%)",
   "Investment Management Fee(%)", "Equity StyleBox™", "Morningstar Rating",
   "3 Year Beta", "3 Year Standard Deviation", "3 Year Sharpe Ratio"]

def NUMERIC_COLUMNS : List String :=
  ["3 Years Annualised (%)", "Investment Management Fee(%)",
   "3 Year Beta", "3 Year Standard Deviation", "3 Year Sharpe Ratio"]

/-! Explicit models of the Python str operations the loader uses, written
over character lists so that they are fully executable. -/

/-- Python str.strip()-style whitespace (the ASCII part, which covers the
data the claims are about). -/
def isPySpace (c : Char) : Bool :=
  c == ' ' || c == '\t' || c == '\n' || c == '\r' || c == '\x0b' || c == '\x0c'

/-- Python str.strip(): drop whitespace from both ends. -/
def pyStrip (cs : List Char) : List Char :=
  ((cs.dropWhile isPySpace).reverse.dropWhile isPySpace).reverse

/-- Lower-casing of one ASCII character (Python str.lower on the data in
scope). -/
def lowerChar (c : Char) : Char :=
  if 'A' ≤ c && c ≤ 'Z' then Char.ofNat (c.toNat + 32) else c

/-- Python str.lower(). -/
def pyLower (cs : List Char) : List Char := cs.map lowerChar

/-- Python str.replace with a one-character pattern and a one-character
replacement (the only substitution shape the loader uses). -/
def replaceChar (a b : Char) (cs : List Char) : List Char :=
  cs.map (fun c => if c == a then b else c)

/-- Python str.replace with a one-character pattern and an empty
replacement. -/
def removeChar (a : Char) (cs : List Char) : List Char :=
  cs.filter (fun c => c != a)

/-- Python str.split(sep) for a one-character separator: splits at every
occurrence, keeping empty parts. -/
def pySplit (sep : Char) : List Char → List (List Char)
  | [] => [[]]
  | c :: t =>
    let r := pySplit sep t
    if c == sep then [] :: r
    else
      match r with
      | h :: t2 => (c :: h) :: t2
      | [] => [[c]]

def digitsVal (cs : List Char) : ℕ :=
  cs.foldl (fun a c => a * 10 + (c.toNat - '0'.toNat)) 0

/-- Model of Python float(...) and of pandas to_numeric on a string: an
optional sign, a decimal mantissa and an optional exponent, surrounded by
optional whitespace; anything else is unparseable.  (Infinities and NaN
literals are outside the numeric domain of the embedding; the loader
screens NaN tokens out before parsing.) -/
def parseFloatChars (raw : List Char) : Option ℚ :=
  let cs := pyStrip raw
  let sgncs : ℚ × List Char :=
    match cs with
    | '+' :: t => (1, t)
    | '-' :: t => (-1, t)
    | _ => (1, cs)
  let ip := sgncs.2.takeWhile Char.isDigit
  let rest1 := sgncs.2.dropWhile Char.isDigit
  let fprest : List Char × List Char :=
    match rest1 with
    | '.' :: t => (t.takeWhile Char.isDigit, t.dropWhile Char.isDigit)
    | _ => ([], rest1)
  if ip.isEmpty && fprest.1.isEmpty then none
  else
    let mant : ℚ := (digitsVal ip : ℚ) + (digitsVal fprest.1 : ℚ) / (10 : ℚ) ^ fprest.1.length
    match fprest.2 with
    | [] => some (sgncs.1 * mant)
    | e :: t =>
      if e == 'e' || e == 'E' then
        let esgnt : ℤ × List Char :=
          match t with
          | '+' :: t2 => (1, t2)
          | '-' :: t2 => (-1, t2)
          | _ => (1, t)
        let ed := esgnt.2.takeWhile Char.isDigit
        let rest3 := esgnt.2.dropWhile Char.isDigit
        if ed.isEmpty || !rest3.isEmpty then none
        else some (sgncs.1 * mant * (10 : ℚ) ^ (esgnt.1 * (digitsVal ed : ℤ)))
      else none

def parseFloat? (s : String) : Option ℚ := parseFloatChars s.toList

/-- The missing-value tokens replaced by NaN in load_and_process_csv
(data_processor.py lines 123-138). -/
def missingTokens : List String :=
  ["Unknown", "N/A", "n/a", "na", "-", "", "null", "NULL", " ",
   "nan", "NaN", "Nan", "NAN"]

/-- Embeds the per-cell processing of the Investment Management Fee(%)
column in load_and_process_csv (data_processor.py lines 113-184): the
generic numeric-column cleaning (literal-nan check, missing-token
replacement, unicode-minus repair, blank check), then the fee-specific
steps (strip percent and dollar signs, comma to dot, take the part before
a slash, null out the zero tokens, average a low-high range), and the
final to_numeric coercion.  Returns the loaded numeric cell, none for
missing. -/
def processFeeCell (raw : String) : Option ℚ :=
  let cs := raw.toList
  if pyStrip (pyLower cs) == "nan".toList then none
  else if missingTokens.contains raw then none
  else
    let s1 := replaceChar '−' '-' cs
    if (pyStrip s1).isEmpty then none
    else
      let s2 := replaceChar ',' '.' (removeChar '$' (removeChar '%' s1))
      let s3 := if s2.contains '/' then pyStrip ((pySplit '/' s2).headD s2) else s2
      if ["0".toList, "0.0".toList, "0.00".toList].contains (pyStrip s3) then none
      else if pyStrip (pyLower s3) == "nan".toList then none
      else if s3.contains '-' then
        match pySplit '-' s3 with
        | [a, b] =>
          match parseFloatChars (pyStrip a), parseFloatChars (pyStrip b) with
          | some lo, some hi => some ((lo + hi) / 2)
          | _, _ => parseFloatChars s3
        | _ => parseFloatChars s3
      else parseFloatChars s3

/-- pandas Series.median(): the middle of the sorted non-missing values,
the mean of the two middles for an even count, missing when no value is
present. -/
def pandasMedian (col : List (Option ℚ)) : Option ℚ :=
  let xs := (col.filterMap id).insertionSort (fun a b => a ≤ b)
  let n := xs.length
  if n = 0 then none
  else if n % 2 = 1 then xs.get? (n / 2)
  else
    match xs.get? (n / 2 - 1), xs.get? (n / 2) with
    | some a, some b => some ((a + b) / 2)
    | _, _ => none

/-- The three scoring metrics whose missing values the loader leaves
missing (data_processor.py line 195). -/
def key_3year_metrics : List String :=
  ["3 Year Beta", "3 Year Standard Deviation", "3 Year Sharpe Ratio"]

/-- Embeds the numeric missing-value backfill of load_and_process_csv
(data_processor.py lines 197-202): a numeric column keeps its values, and
its missing entries are filled with the column median unless the column
is one of the key 3-year metrics, which are left as they are. -/
def fillNumericColumn (name : String) (col : List (Option ℚ)) : List (Option ℚ) :=
  if key_3year_metrics.contains name then col
  else col.map (fun o =>
    match o with
    | some v => some v
    | none => pandasMedian col)

/-- Embeds the string-column backfill of load_and_process_csv
(data_processor.py lines 205-208): missing entries become the literal
"Unknown". -/
def fillStringColumn (col : List (Option String)) : List String :=
  col.map (fun o => o.getD "Unknown")

/-! Embedding of validate_csv (data_processor.py lines 14-91).  The two
pandas read failures (EmptyDataError and ParserError) are represented as
input constructors; a parsed sample is a header plus rows. -/

inductive RawCsv where
  | emptyFile
  | badFormat
  | table (cols : List String) (rows : List TRow)

/-- Column access on a sample row: a missing cell is a pandas NaN, which
astype(str) renders as the string nan. -/
def getCellStr (r : TRow) (c : String) : String :=
  (getCell r c).getD "nan"

/-- The pre-pass of validate_csv replacing the exact literal nan spellings
by an empty string (data_processor.py line 41). -/
def preNan (val : String) : String :=
  if ["nan", "NaN", "Nan", "NAN"].contains val then "" else val

/-- The skip test of the validate_csv scan (data_processor.py lines 47-53):
blank values and the recognized missing-value terms are not validated. -/
def skipVal (val : String) : Bool :=
  val == "" || (pyStrip val.toList).isEmpty ||
  (["na", "n/a", "unknown", "null", "nan", "-"].map String.toList).contains
    (pyLower val.toList) ||
  pyStrip (pyLower val.toList) == "nan".toList

/-- The problematic-value scan of validate_csv over one column
(data_processor.py lines 44-61): entries that are not skipped and do not
parse as floats after the unicode-minus repair, rendered as the messages
the source builds. -/
def problemEntries (vals : List String) : List String :=
  (vals.map preNan).enum.filterMap (fun p =>
    if skipVal p.2 then none
    else if (parseFloatChars (replaceChar '−' '-' p.2.toList)).isSome then none
    else some ("Row " ++ toString (p.1 + 1) ++ ": '" ++ p.2 ++ "'"))

/-- The capped example list of validate_csv (data_processor.py lines 64-68). -/
def problemStr (entries : List String) : String :=
  if entries.length > 3 then
    String.intercalate ", " (entries.take 3) ++ ", and " ++
      toString (entries.length - 3) ++ " more"
  else String.intercalate ", " entries

/-- The first numeric column with problematic values, with its rendered
example list. -/
def firstBadColumn (rows : List TRow) : Option (String × String) :=
  NUMERIC_COLUMNS.findSome? (fun col =>
    let entries := problemEntries (rows.map (fun r => getCellStr r col))
    if entries.isEmpty then none else some (col, problemStr entries))

/-- Embeds validate_csv (data_processor.py lines 14-91): the (is_valid,
error_message) pair the caller receives. -/
def validate_csv : RawCsv → Bool × String
  | .emptyFile => (false, "The CSV file is empty")
  | .badFormat => (false, "The file is not a valid CSV format")
  | .table cols rows =>
    match REQUIRED_COLUMNS.filter (fun c => !cols.contains c) with
    | [] =>
      match firstBadColumn rows with
      | some p => (false, "Column '" ++ p.1 ++ "' contains non-numeric values: " ++ p.2)
      | none => (true, "")
    | m :: ms =>
      (false, "Missing required columns: " ++ String.intercalate ", " (m :: ms))

/-- The three error kinds of the loading contract. -/
inductive LoadErrKind where
  | malformedInput
  | missingColumns
  | nonNumeric
deriving DecidableEq

/-- The kind of failure validate_csv diagnoses on an input, none when the
input validates. -/
def validateKind : RawCsv → Option LoadErrKind
  | .emptyFile => some .malformedInput
  | .badFormat => some .malformedInput
  | .table cols rows =>
    match REQUIRED_COLUMNS.filter (fun c => !cols.contains c) with
    | [] =>
      match firstBadColumn rows with
      | some _ => some .nonNumeric
      | none => none
    | _ :: _ => some .missingColumns

/-- The discrimination a caller can perform on the returned message: the
three kinds open with distinct words (The, Missing, Column), so the first
character already separates them. -/
def msgKind (m : String) : Option LoadErrKind :=
  match m.toList with
  | 'T' :: _ => some .malformedInput
  | 'M' :: _ => some .missingColumns
  | 'C' :: _ => some .nonNumeric
  | _ => none

/-! Embedding of apply_formula in src/utils/formula_engine.py (lines
16-120): the construction of the variable namespace handed to eval, and
a model of the only evaluation guards the engine has. -/

/-- fillna(-9999) on a numeric column (formula_engine.py line 41): the
cleaned series every namespace entry is built from. -/
def fillSentinel (col : List (Option ℚ)) : List ℚ :=
  col.map (fun o => o.getD (-9999))

/-- Arithmetic mean of a list of rationals (the mean entering a z-score). -/
def listMeanQ (xs : List ℚ) : ℚ := xs.sum / xs.length

/-- pandas Series.rank(pct=True) at the value v: the average rank of the
tied group of v divided by the series length (standard fractional
ranking). -/
def rankPct (xs : List ℚ) (v : ℚ) : ℚ :=
  ((xs.countP (fun u => decide (u < v)) : ℚ) +
    ((xs.countP (fun u => u == v) : ℚ) + 1) / 2) / xs.length

/-- The derived namespace entries apply_formula builds for one numeric
column (formula_engine.py lines 37-75): the raw series with NaNs replaced
by -9999, the series handed to stats.zscore (present only when the
cleaned series has more than one distinct value), and the percentile
series rank(pct=True) * 100. -/
structure DerivedEntries where
  raw : List ℚ
  zscoreInput : Option (List ℚ)
  percentile : List ℚ

def deriveEntries (col : List (Option ℚ)) : DerivedEntries :=
  let clean := fillSentinel col
  { raw := clean
  , zscoreInput := if 1 < clean.dedup.length then some clean else none
  , percentile := clean.map (fun v => rankPct clean v * 100) }

/-- The alias map of apply_formula (formula_engine.py lines 24-30). -/
def rename_map : List (String × String) :=
  [("return", "3 Years Annualised (%)"),
   ("expense_ratio", "Investment Management Fee(%)"),
   ("risk", "3 Year Standard Deviation"),
   ("beta", "3 Year Beta"),
   ("sharpe", "3 Year Sharpe Ratio")]

/-- The keys of the local_vars namespace apply_formula hands to eval, for
a table whose numeric columns are numCols (each with more than one
distinct value, so the z-score entries exist): the column names, their
aliases, the derived zscore and percentile names, and the two helper
functions (formula_engine.py lines 33-97). -/
def namespaceKeys (numCols : List String) : List String :=
  (numCols.map (fun col =>
    [col] ++ rename_map.filterMap (fun p => if p.2 == col then some p.1 else none)
      ++ [col ++ "_zscore"]
      ++ rename_map.filterMap (fun p =>
            if p.2 == col then some (p.1 ++ "_zscore") else none)
      ++ [col ++ "_percentile"]
      ++ rename_map.filterMap (fun p =>
            if p.2 == col then some (p.1 ++ "_percentile") else none))).flatten
  ++ ["top_n_pct", "bottom_n_pct"]

/-- A fragment of the Python expression grammar that eval accepts: enough
to express the formulas the engine sees, including the attribute access
and call nodes that the expression grammar admits beyond the claimed
arithmetic, comparison and boolean connectives. -/
inductive PyExpr where
  | num (q : ℚ)
  | str (s : String)
  | name (id : String)
  | binop (l r : PyExpr)
  | cmp (l r : PyExpr)
  | boolop (l r : PyExpr)
  | attr (obj : PyExpr) (fld : String)
  | call (f : PyExpr) (arg : PyExpr)

/-- The bare names an expression looks up in the evaluation namespace.
Attribute accesses and calls resolve against the object, not the
namespace. -/
def freeNames : PyExpr → List String
  | .num _ => []
  | .str _ => []
  | .name i => [i]
  | .binop l r => freeNames l ++ freeNames r
  | .cmp l r => freeNames l ++ freeNames r
  | .boolop l r => freeNames l ++ freeNames r
  | .attr o _ => freeNames o
  | .call f a => freeNames f ++ freeNames a

def containsAttr : PyExpr → Bool
  | .num _ => false
  | .str _ => false
  | .name _ => false
  | .binop l r => containsAttr l || containsAttr r
  | .cmp l r => containsAttr l || containsAttr r
  | .boolop l r => containsAttr l || containsAttr r
  | .attr _ _ => true
  | .call f a => containsAttr f || containsAttr a

/-- Model of the NameError guard of apply_formula (formula_engine.py lines
100 and 107-114): eval(formula, with empty builtins, local_vars) raises
NameError exactly when a bare name outside local_vars is looked up; no
other construct of the expression grammar consults the namespace. -/
def raisesNameError (keys : List String) (e : PyExpr) : Bool :=
  (freeNames e).any (fun n => !keys.contains n)

/-- The fragment the claim says is the only reachable one: literals,
whitelisted names, arithmetic, comparisons, boolean connectives, and
calls to the two helper functions. -/
def isWhitelistedFragment (keys : List String) : PyExpr → Bool
  | .num _ => true
  | .str _ => true
  | .name i => keys.contains i
  | .binop l r => isWhitelistedFragment keys l && isWhitelistedFragment keys r
  | .cmp l r => isWhitelistedFragment keys l && isWhitelistedFragment keys r
  | .boolop l r => isWhitelistedFragment keys l && isWhitelistedFragment keys r
  | .attr _ _ => false
  | .call f a =>
    (match f with
     | .name fn => fn == "top_n_pct" || fn == "bottom_n_pct"
     | _ => false) && isWhitelistedFragment keys a

/-- The escape formula risk.to_csv(...): a method call on a whitelisted
pandas Series, which writes a file when the host eval executes it. -/
def escapeExpr : PyExpr :=
  .call (.attr (.name "risk") "to_csv") (.str "pwned.csv")

/-! Embedding of extract_apir_codes_from_pdf (src/utils/hub24_filter.py
lines 6-58).  The two regular expressions of the source,
standard_pattern = \b[A-Z]{3}[0-9A-Z]{2,9}(?:AU)?\b and
special_pattern = \b[A-Z]{3}[\s\-]?[0-9A-Z]{2,6}[\s\-]?(?:AU)?\b,
are translated into explicit backtracking matchers over character lists
(greedy quantifiers, word boundaries, re.findall scanning), and the page
text is the extracted text the source iterates over. -/

/-- The class [A-Z]. -/
def isUpperCh (c : Char) : Bool := 'A' ≤ c && c ≤ 'Z'

/-- The class [0-9A-Z]. -/
def isUpperDigit (c : Char) : Bool := isUpperCh c || c.isDigit

/-- Python regex word character (ASCII part of \w). -/
def isWordChar (c : Char) : Bool := c.isAlphanum || c == '_'

/-- The class [\s\-]. -/
def isSpaceHyphen (c : Char) : Bool := isPySpace c || c == '-'

/-- The word boundary \b between a consumed character and the rest of the
text: exactly one side is a word character (end of text counts as
non-word). -/
def boundaryAfter (last : Char) (rest : List Char) : Bool :=
  match rest with
  | [] => isWordChar last
  | c :: _ => isWordChar last != isWordChar c

/-- The tail (?:AU)?\b of both patterns, greedy: try to consume AU and meet
a boundary, else consume nothing and meet a boundary; len is the length
consumed so far after the three-letter prefix. -/
def tryAuBoundary (last : Char) (rest : List Char) (len : ℕ) : Option ℕ :=
  match rest with
  | 'A' :: 'U' :: rest2 =>
    if boundaryAfter 'U' rest2 then some (len + 2)
    else if boundaryAfter last rest then some len else none
  | _ => if boundaryAfter last rest then some len else none

/-- The counted class [0-9A-Z]{2,9} of the standard pattern, backtracking
from k characters down to 2, each followed by (?:AU)?\b; tail3 is the
text after the three-letter prefix, whose first characters up to the
tried k lie in the class. -/
def stdTryK (tail3 : List Char) : ℕ → Option ℕ
  | 0 => none
  | k + 1 =>
    if k + 1 < 2 then none
    else
      match (tail3.take (k + 1)).getLast? with
      | some last =>
        match tryAuBoundary last (tail3.drop (k + 1)) (k + 1) with
        | some n => some n
        | none => stdTryK tail3 k
      | none => stdTryK tail3 k

/-- The standard pattern matched at the head of s (the leading \b is
checked by the scanner): three uppercase letters, then the counted class
with its greedy backtracking.  Returns the match length. -/
def matchStdAt (s : List Char) : Option ℕ :=
  match s with
  | c1 :: c2 :: c3 :: tail3 =>
    if isUpperCh c1 && isUpperCh c2 && isUpperCh c3 then
      match stdTryK tail3 (min (tail3.takeWhile isUpperDigit).length 9) with
      | some n => some (3 + n)
      | none => none
    else none
  | _ => none

/-- The part [\s\-]?(?:AU)?\b of the special pattern after the counted
class, greedy on the optional separator. -/
def specAfterK (last : Char) (rest2 : List Char) (len : ℕ) : Option ℕ :=
  (match rest2 with
   | c :: rest3 =>
     if isSpaceHyphen c then tryAuBoundary c rest3 (len + 1) else none
   | [] => none)
  <|> tryAuBoundary last rest2 len

/-- The counted class [0-9A-Z]{2,6} of the special pattern with its
backtracking, each k followed by the optional separator and suffix;
sep1len is the length of the optional separator already consumed after
the prefix. -/
def specTryK (sep1len : ℕ) (tailAfterSep : List Char) : ℕ → Option ℕ
  | 0 => none
  | k + 1 =>
    if k + 1 < 2 then none
    else
      match (tailAfterSep.take (k + 1)).getLast? with
      | some last =>
        match specAfterK last (tailAfterSep.drop (k + 1)) (sep1len + (k + 1)) with
        | some n => some n
        | none => specTryK sep1len tailAfterSep k
      | none => specTryK sep1len tailAfterSep k

/-- The special pattern matched at the head of s: three uppercase letters,
an optional space or hyphen (greedy), the counted class, an optional
space or hyphen, an optional AU, and a boundary. -/
def matchSpecAt (s : List Char) : Option ℕ :=
  match s with
  | c1 :: c2 :: c3 :: tail3 =>
    if isUpperCh c1 && isUpperCh c2 && isUpperCh c3 then
      let withSep : Option ℕ :=
        match tail3 with
        | c :: tail4 =>
          if isSpaceHyphen c then
            specTryK 1 tail4 (min (tail4.takeWhile isUpperDigit).length 6)
          else none
        | [] => none
      match withSep <|> specTryK 0 tail3 (min (tail3.takeWhile isUpperDigit).length 6) with
      | some n => some (3 + n)
      | none => none
    else none
  | _ => none

/-- re.findall: scan left to right; at a position where the leading \b can
hold (the previous character is not a word character, as the first
pattern character is one), take the match and continue after its end,
else advance one character.  Fuel is the remaining text length plus one. -/
def findAllWith (matchAt : List Char → Option ℕ) :
    Option Char → List Char → ℕ → List (List Char)
  | _, _, 0 => []
  | prev, s, fuel + 1 =>
    match s with
    | [] => []
    | c :: t =>
      let bOk := match prev with
                 | none => true
                 | some p => !isWordChar p
      if bOk then
        match matchAt s with
        | some n =>
          (s.take n) :: findAllWith matchAt ((s.take n).getLast?) (s.drop n) fuel
        | none => findAllWith matchAt (some c) t fuel
      else findAllWith matchAt (some c) t fuel

/-- The cleaning of a tolerant match: spaces and hyphens are removed
(hub24_filter.py line 43). -/
def stripSpaceHyphen (cs : List Char) : List Char :=
  removeChar '-' (removeChar ' ' cs)

/-- Python str.isalpha (ASCII): non-empty and all letters. -/
def pyIsAlpha (s : String) : Bool :=
  !s.toList.isEmpty && s.toList.all Char.isAlpha

/-- The per-page scan of extract_apir_codes_from_pdf (hub24_filter.py
lines 32-49): matches of both patterns, the tolerant matches cleaned and
kept only when not already among the page's standard matches. -/
def pageCodes (text : String) : List String :=
  let cs := text.toList
  let std := (findAllWith matchStdAt none cs (cs.length + 1)).map String.mk
  let sp := (findAllWith matchSpecAt none cs (cs.length + 1)).map String.mk
  let cleaned := (sp.map (fun c => String.mk (stripSpaceHyphen c.toList))).filter
      (fun c => !std.contains c)
  std ++ cleaned

/-- Embeds extract_apir_codes_from_pdf (hub24_filter.py lines 6-54): the
deduplicated codes of all pages, post-filtered to drop candidates shorter
than five characters or consisting entirely of letters.  The set is
modelled as a duplicate-free list. -/
def extract_apir_codes (pages : List String) : List String :=
  ((pages.map pageCodes).flatten).eraseDups.filter
    (fun c => decide (5 ≤ c.length) && !pyIsAlpha c)

/-! Theorems. -/

theorem eval_stdev_diff_A : calc_stdev_diff [exA, exB] exA = some (-(1/2) * 10) := by
  simp only [calc_stdev_diff, categoryMean, listMean, exA, exB, List.filter, List.filterMap]
  norm_num

theorem eval_sharpe_diff_A : calc_sharpe_diff [exA, exB] exA = some (-(1/2)) := by
  simp only [calc_sharpe_diff, categoryMean, listMean, exA, exB, List.filter, List.filterMap]
  norm_num

theorem eval_beta_diff_A : calc_beta_diff [exA, exB] exA = some (-(1/10)) := by
  simp only [calc_beta_diff, categoryMean, listMean, exA, exB, List.filter, List.filterMap]
  norm_num

/-- Claim C1, counterexample: on the spec's own two-record example, the
scorer's composite for record A is -1.1, while the formula the claim
states, (stddev_diff / 10) * (-1) + sharpe_diff + beta_diff, gives -0.1
there; so the composite does not equal the claimed formula. -/
theorem C1_counterexample :
    calc_composite_score [exA, exB] exA = some (-(11/10)) ∧
    specClaimedComposite [exA, exB] exA = some (-(1/10)) ∧
    calc_composite_score [exA, exB] exA ≠ specClaimedComposite [exA, exB] exA := by
  have h1 : calc_composite_score [exA, exB] exA = some (-(11/10)) := by
    simp only [calc_composite_score, calc_stdev_diff, calc_sharpe_diff, calc_beta_diff,
      categoryMean, listMean, exA, exB, List.filter, List.filterMap]
    norm_num
  have h2 : specClaimedComposite [exA, exB] exA = some (-(1/10)) := by
    simp only [specClaimedComposite, calc_stdev_diff, calc_sharpe_diff, calc_beta_diff,
      categoryMean, listMean, exA, exB, List.filter, List.filterMap]
    norm_num
  refine ⟨h1, h2, ?_⟩
  rw [h1, h2]
  intro h
  have := Option.some.inj h
  norm_num at this

/-- Claim C1, amended: for every record whose three differentials are all
non-missing, the composite score equals (stddev_diff / 10) + sharpe_diff
+ beta_diff (the stddev term is added, not negated), where stddev_diff =
record StdDev minus category mean StdDev, sharpe_diff = record Sharpe
minus category mean Sharpe, and beta_diff = category mean Beta minus
record Beta; on the two-record example, A's composite is -1.1 and B's is
1.1. -/
theorem C1_amended :
    (∀ (recs : List Record) (r : Record) (sd sh bd : ℚ),
        calc_stdev_diff recs r = some sd →
        calc_sharpe_diff recs r = some sh →
        calc_beta_diff recs r = some bd →
        calc_composite_score recs r = some (sd / 10 + sh + bd)) ∧
    calc_composite_score [exA, exB] exA = some (-(11/10)) ∧
    calc_composite_score [exA, exB] exB = some (11/10) := by
  refine ⟨?_, ?_, ?_⟩
  · intro recs r sd sh bd hsd hsh hbd
    simp only [calc_composite_score, hsd, hsh, hbd]
  · simp only [calc_composite_score, calc_stdev_diff, calc_sharpe_diff, calc_beta_diff,
      categoryMean, listMean, exA, exB, List.filter, List.filterMap]
    norm_num
  · simp only [calc_composite_score, calc_stdev_diff, calc_sharpe_diff, calc_beta_diff,
      categoryMean, listMean, exA, exB, List.filter, List.filterMap]
    norm_num

/-- Witness for the amended claim C1: the general formula applied at the
concrete record A of the example table. -/
theorem C1_witness :
    calc_composite_score [exA, exB] exA = some ((-(1/2) * 10) / 10 + -(1/2) + -(1/10)) :=
  C1_amended.1 [exA, exB] exA (-(1/2) * 10) (-(1/2)) (-(1/10))
    eval_stdev_diff_A eval_sharpe_diff_A eval_beta_diff_A

/-- Claim C3: if any of a record's beta, Sharpe ratio or standard deviation
is missing, its composite score is missing, whatever the category
averages are. -/
theorem C3_composite_missing :
    ∀ (recs : List Record) (r : Record),
      (r.beta = none ∨ r.sharpe = none ∨ r.stddev = none) →
      calc_composite_score recs r = none := by
  intro recs r h
  rcases h with hb | hs | hsd
  · have hbd : calc_beta_diff recs r = none := by simp [calc_beta_diff, hb]
    cases h1 : calc_stdev_diff recs r <;> cases h2 : calc_sharpe_diff recs r <;>
      simp [calc_composite_score, h1, h2, hbd]
  · have hsh : calc_sharpe_diff recs r = none := by simp [calc_sharpe_diff, hs]
    cases h1 : calc_stdev_diff recs r <;> cases h3 : calc_beta_diff recs r <;>
      simp [calc_composite_score, h1, h3, hsh]
  · have hst : calc_stdev_diff recs r = none := by simp [calc_stdev_diff, hsd]
    cases h2 : calc_sharpe_diff recs r <;> cases h3 : calc_beta_diff recs r <;>
      simp [calc_composite_score, h2, h3, hst]

/-- Witness for claim C3: a record with a missing beta gets a missing
composite score. -/
theorem C3_witness : calc_composite_score [exMissingBeta] exMissingBeta = none :=
  C3_composite_missing [exMissingBeta] exMissingBeta (Or.inl rfl)

/-- Claim C4: the platform filter returns the input table unchanged when the
code set is empty or the table is empty (with no warning), and when the
APIR Code column is absent it also returns the table unchanged,
signalling at most a recoverable warning and never failing. -/
theorem C4_filter_noop :
    ∀ (t : Table) (codes : List String),
      ((codes = [] ∨ t.rows = []) →
        filter_investments_by_apir (some t) codes = (some t, false)) ∧
      ("APIR Code" ∉ t.cols →
        (filter_investments_by_apir (some t) codes).1 = some t) ∧
      (("APIR Code" ∉ t.cols ∧ t.rows ≠ [] ∧ codes ≠ []) →
        filter_investments_by_apir (some t) codes = (some t, true)) := by
  intro t codes
  refine ⟨?_, ?_, ?_⟩
  · intro h
    rcases h with h | h <;>
      simp [filter_investments_by_apir, h, List.isEmpty_iff]
  · intro h
    by_cases hre : (t.rows.isEmpty || codes.isEmpty) = true
    · simp [filter_investments_by_apir, hre]
    · have hre2 : (t.rows.isEmpty || codes.isEmpty) = false := by
        simpa using hre
      simp [filter_investments_by_apir, hre2, h]
  · rintro ⟨h1, h2, h3⟩
    have hre : (t.rows.isEmpty || codes.isEmpty) = false := by
      simp [List.isEmpty_iff, h2, h3]
    simp [filter_investments_by_apir, hre, h1]

/-- Witness for claim C4: an empty code set is a no-op on a concrete table,
and on a table without the APIR Code column a non-empty code set returns
the table unchanged with the warning flag set. -/
theorem C4_witness :
    filter_investments_by_apir (some w4T) [] = (some w4T, false) ∧
    filter_investments_by_apir (some w4T) ["ABC123AU"] = (some w4T, true) :=
  ⟨(C4_filter_noop w4T []).1 (Or.inl rfl),
   (C4_filter_noop w4T ["ABC123AU"]).2.2 ⟨by decide, by decide, by decide⟩⟩

/-- Claim C5: on a non-empty table that has the APIR Code column and a
non-empty code set, the platform filter returns exactly the rows whose
identifier is a member of the code set under exact, case-sensitive string
equality. -/
theorem C5_filter_exact :
    ∀ (t : Table) (codes : List String),
      t.rows ≠ [] → codes ≠ [] → "APIR Code" ∈ t.cols →
      ∃ t2, filter_investments_by_apir (some t) codes = (some t2, false) ∧
        t2.cols = t.cols ∧
        t2.rows = t.rows.filter (fun r =>
          match getCell r "APIR Code" with
          | some v => codes.contains v
          | none => false) ∧
        (∀ r, r ∈ t2.rows ↔
          (r ∈ t.rows ∧ ∃ v, getCell r "APIR Code" = some v ∧ v ∈ codes)) := by
  intro t codes h1 h2 h3
  have hre : (t.rows.isEmpty || codes.isEmpty) = false := by
    simp [List.isEmpty_iff, h1, h2]
  refine ⟨{ cols := t.cols
          , rows := t.rows.filter (fun r =>
              match getCell r "APIR Code" with
              | some v => codes.contains v
              | none => false) },
    by simp [filter_investments_by_apir, hre, h3], rfl, rfl, ?_⟩
  intro r
  simp only [List.mem_filter]
  constructor
  · rintro ⟨hr, hp⟩
    refine ⟨hr, ?_⟩
    cases hg : getCell r "APIR Code" with
    | none => rw [hg] at hp; exact absurd hp (by simp)
    | some v =>
      rw [hg] at hp
      exact ⟨v, rfl, by simpa using hp⟩
  · rintro ⟨hr, v, hg, hv⟩
    refine ⟨hr, ?_⟩
    rw [hg]
    simpa using hv

/-- Witness for claim C5: filtering the concrete three-row table by the
code set containing only ABC123AU keeps exactly the row whose code is
ABC123AU; the row with the lower-case code abc123au is excluded. -/
theorem C5_witness :
    filter_investments_by_apir (some w5T) ["ABC123AU"] =
      (some { cols := ["Name", "APIR Code"]
            , rows := [[("Name", "Fund One"), ("APIR Code", "ABC123AU")]] }, false) := by
  obtain ⟨t2, heq, hcols, hrows, _⟩ :=
    C5_filter_exact w5T ["ABC123AU"] (by decide) (by decide) (by decide)
  rw [heq]
  have : t2 = { cols := ["Name", "APIR Code"]
              , rows := [[("Name", "Fund One"), ("APIR Code", "ABC123AU")]] } := by
    cases t2
    simp only [Table.mk.injEq]
    simp only at hcols hrows
    refine ⟨hcols, ?_⟩
    rw [hrows]
    decide
  rw [this]

/-- Claim C7: after load, a general numeric column has each missing value
replaced by the column median, the three key 3-year metrics keep their
missing values, and missing values of string columns become the literal
"Unknown" (present values are never altered). -/
theorem C7_backfill :
    ∀ (name : String) (col : List (Option ℚ)) (scol : List (Option String)),
      (name ∉ key_3year_metrics →
        ∀ i : ℕ, col[i]? = some none →
          (fillNumericColumn name col)[i]? = some (pandasMedian col)) ∧
      (∀ (i : ℕ) (v : ℚ), col[i]? = some (some v) →
        (fillNumericColumn name col)[i]? = some (some v)) ∧
      (name ∈ key_3year_metrics → fillNumericColumn name col = col) ∧
      (∀ i : ℕ, scol[i]? = some none → (fillStringColumn scol)[i]? = some "Unknown") ∧
      (∀ (i : ℕ) (v : String), scol[i]? = some (some v) →
        (fillStringColumn scol)[i]? = some v) := by
  intro name col scol
  refine ⟨?_, ?_, ?_, ?_, ?_⟩
  · intro h i hi
    simp [fillNumericColumn, h, List.getElem?_map, hi]
  · intro i v hi
    by_cases h : name ∈ key_3year_metrics
    · simp [fillNumericColumn, h, hi]
    · simp [fillNumericColumn, h, List.getElem?_map, hi]
  · intro h
    simp [fillNumericColumn, h]
  · intro i hi
    simp [fillStringColumn, List.getElem?_map, hi]
  · intro i v hi
    simp [fillStringColumn, List.getElem?_map, hi]

/-- Witness for claim C7: on the column with values 1, missing, 3, the
missing entry of a general numeric column is filled with the median, 2;
a key metric column is unchanged; a string column fills with Unknown. -/
theorem C7_witness :
    (fillNumericColumn "Investment Management Fee(%)" [some 1, none, some 3])[(1 : ℕ)]? =
        some (pandasMedian [some 1, none, some 3]) ∧
    pandasMedian [some 1, none, some 3] = some 2 ∧
    fillNumericColumn "3 Year Beta" [some 1, none, some 3] = [some 1, none, some 3] ∧
    (fillStringColumn [some "a", none])[(1 : ℕ)]? = some "Unknown" := by
  refine ⟨(C7_backfill "Investment Management Fee(%)" [some 1, none, some 3] []).1
      (by decide) 1 rfl, ?_,
    (C7_backfill "3 Year Beta" [some 1, none, some 3] []).2.2.1 (by decide),
    (C7_backfill "x" [] [some "a", none]).2.2.2.1 1 rfl⟩
  have h : pandasMedian [some 1, none, some 3] = some (((1 : ℚ) + 3) / 2) := rfl
  rw [h]
  norm_num

/-- Claim C8, divergence witness: the loader nulls out only the literal fee
tokens 0, 0.0 and 0.00; the cell 0.000 parses to the fee value exactly 0
and survives into the loaded table (the subsequent backfill does not touch
it, being non-missing), so a record with a zero fee can exist. -/
theorem C8_zero_fee_slips :
    processFeeCell "0" = none ∧
    processFeeCell "0.0" = none ∧
    processFeeCell "0.00" = none ∧
    processFeeCell "0.000" = some 0 ∧
    fillNumericColumn "Investment Management Fee(%)"
        (["1.5%", "0.000"].map processFeeCell) = [some (3/2), some 0] := by
  have h1 : processFeeCell "0.000" =
      some ((1 : ℚ) * (((0 : ℕ) : ℚ) + ((0 : ℕ) : ℚ) / (10 : ℚ) ^ (3 : ℕ))) := rfl
  have h2 : processFeeCell "1.5%" =
      some ((1 : ℚ) * (((1 : ℕ) : ℚ) + ((5 : ℕ) : ℚ) / (10 : ℚ) ^ (1 : ℕ))) := rfl
  have h3 : processFeeCell "0.000" = some 0 := by rw [h1]; norm_num
  have h4 : processFeeCell "1.5%" = some (3/2) := by rw [h2]; norm_num
  refine ⟨by decide, by decide, by decide, h3, ?_⟩
  have hk : key_3year_metrics.contains "Investment Management Fee(%)" = false := rfl
  simp [fillNumericColumn, hk, h3, h4]

theorem msgKind_the_empty :
    msgKind "The CSV file is empty" = some LoadErrKind.malformedInput := rfl

theorem msgKind_the_format :
    msgKind "The file is not a valid CSV format" = some LoadErrKind.malformedInput := rfl

theorem msgKind_missing (x : String) :
    msgKind ("Missing required columns: " ++ x) = some LoadErrKind.missingColumns := by
  have h : ("Missing required columns: " ++ x).toList
      = 'M' :: ("issing required columns: ".toList ++ x.toList) := by
    simp [String.toList, String.data_append]
  simp [msgKind, h]

theorem msgKind_column (x y : String) :
    msgKind ("Column '" ++ x ++ "' contains non-numeric values: " ++ y) =
      some LoadErrKind.nonNumeric := by
  have h : ("Column '" ++ x ++ "' contains non-numeric values: " ++ y).toList
      = 'C' :: ("olumn '".toList ++ x.toList ++
          "' contains non-numeric values: ".toList ++ y.toList) := by
    simp [String.toList, String.data_append]
  simp [msgKind, h]

/-- Claim C9: validation failures are one of three kinds, and the message
the caller receives determines the kind: validate_csv succeeds exactly
when no kind applies, and on failure the message maps back to the kind
that produced it (malformed input, missing required columns, and
non-numeric column open with distinct words). -/
theorem C9_error_kinds :
    ∀ c : RawCsv,
      ((validate_csv c).1 = true ↔ validateKind c = none) ∧
      (∀ k, validateKind c = some k → msgKind (validate_csv c).2 = some k) := by
  intro c
  cases c with
  | emptyFile =>
    refine ⟨by simp [validate_csv, validateKind], ?_⟩
    intro k hk
    simp only [validateKind, Option.some.injEq] at hk
    rw [← hk]
    exact msgKind_the_empty
  | badFormat =>
    refine ⟨by simp [validate_csv, validateKind], ?_⟩
    intro k hk
    simp only [validateKind, Option.some.injEq] at hk
    rw [← hk]
    exact msgKind_the_format
  | table cols rows =>
    cases hm : REQUIRED_COLUMNS.filter (fun c => !decide (c ∈ cols)) with
    | nil =>
      cases hb : firstBadColumn rows with
      | none =>
        refine ⟨by simp [validate_csv, validateKind, hm, hb], ?_⟩
        intro k hk
        simp [validateKind, hm, hb] at hk
      | some p =>
        refine ⟨by simp [validate_csv, validateKind, hm, hb], ?_⟩
        intro k hk
        have hk2 : LoadErrKind.nonNumeric = k := by
          simpa [validateKind, hm, hb] using hk
        rw [← hk2]
        have hv : (validate_csv (.table cols rows)).2 =
            "Column '" ++ p.1 ++ "' contains non-numeric values: " ++ p.2 := by
          simp [validate_csv, hm, hb]
        rw [hv]
        exact msgKind_column p.1 p.2
    | cons m ms =>
      refine ⟨by simp [validate_csv, validateKind, hm], ?_⟩
      intro k hk
      have hk2 : LoadErrKind.missingColumns = k := by
        simpa [validateKind, hm] using hk
      rw [← hk2]
      have hv : (validate_csv (.table cols rows)).2 =
          "Missing required columns: " ++ String.intercalate ", " (m :: ms) := by
        simp [validate_csv, hm]
      rw [hv]
      exact msgKind_missing _

/-- Witness for claim C9: a sample missing every required column is
diagnosed as the missing-columns kind and its message maps back to that
kind; an empty file maps to the malformed kind. -/
theorem C9_witness :
    msgKind (validate_csv (.table ["Foo"] [])).2 = some LoadErrKind.missingColumns ∧
    msgKind (validate_csv .emptyFile).2 = some LoadErrKind.malformedInput :=
  ⟨(C9_error_kinds (.table ["Foo"] [])).2 LoadErrKind.missingColumns (by decide),
   (C9_error_kinds .emptyFile).2 LoadErrKind.malformedInput (by decide)⟩

/-- Claim C2, divergence witness: the engine's only guards are the
NameError handler (unknown bare name) and the SyntaxError handler; the
formula risk.to_csv(...) is syntactically valid, references no bare name
outside the namespace apply_formula builds, and yet contains an attribute
access and a method call outside the claimed fragment — so neither guard
fires and host eval executes the pandas method, reaching the filesystem. -/
theorem C2_eval_guard_gap :
    raisesNameError (namespaceKeys NUMERIC_COLUMNS) escapeExpr = false ∧
    containsAttr escapeExpr = true ∧
    isWhitelistedFragment (namespaceKeys NUMERIC_COLUMNS) escapeExpr = false := by
  refine ⟨by decide, rfl, rfl⟩

theorem countP_lt_add_countP_eq_le (xs : List ℚ) (u v : ℚ) (huv : u < v) :
    xs.countP (fun x => decide (x < u)) + xs.countP (fun x => x == u)
      ≤ xs.countP (fun x => decide (x < v)) := by
  induction xs with
  | nil => simp
  | cons a t ih =>
    simp only [List.countP_cons]
    rcases lt_trichotomy a u with hlt | heq | hgt
    · have h1 : decide (a < u) = true := by simpa using hlt
      have h2 : (a == u) = false := by simpa using ne_of_lt hlt
      have h3 : decide (a < v) = true := by simpa using lt_trans hlt huv
      simp only [h1, h2, h3]
      simp
      omega
    · have h1 : decide (a < u) = false := by simpa using not_lt_of_le (le_of_eq heq.symm)
      have h2 : (a == u) = true := by simpa using heq
      have h3 : decide (a < v) = true := by
        simpa using heq ▸ huv
      simp only [h1, h2, h3]
      simp
      omega
    · have h1 : decide (a < u) = false := by simpa using not_lt_of_le (le_of_lt hgt)
      have h2 : (a == u) = false := by simpa using (ne_of_lt hgt).symm
      simp only [h1, h2]
      cases hd : decide (a < v) <;> simp <;> omega

theorem rankPct_strict (xs : List ℚ) (u v : ℚ) (hu : u ∈ xs) (hv : v ∈ xs)
    (huv : u < v) : rankPct xs u < rankPct xs v := by
  have hn : 0 < xs.length := List.length_pos.mpr (by rintro rfl; simp at hu)
  have h1 := countP_lt_add_countP_eq_le xs u v huv
  have h2 : 0 < xs.countP (fun x => x == u) := by
    rw [List.countP_pos]
    exact ⟨u, hu, by simp⟩
  have h3 : 0 < xs.countP (fun x => x == v) := by
    rw [List.countP_pos]
    exact ⟨v, hv, by simp⟩
  have hnq : (0 : ℚ) < xs.length := by exact_mod_cast hn
  have c1 : ((xs.countP (fun x => decide (x < u)) : ℚ) +
      (xs.countP (fun x => x == u) : ℚ)) ≤ (xs.countP (fun x => decide (x < v)) : ℚ) := by
    exact_mod_cast h1
  have c2 : (1 : ℚ) ≤ (xs.countP (fun x => x == u) : ℚ) := by exact_mod_cast h2
  have c3 : (1 : ℚ) ≤ (xs.countP (fun x => x == v) : ℚ) := by exact_mod_cast h3
  have key : (xs.countP (fun x => decide (x < u)) : ℚ) +
        ((xs.countP (fun x => x == u) : ℚ) + 1) / 2 <
      (xs.countP (fun x => decide (x < v)) : ℚ) +
        ((xs.countP (fun x => x == v) : ℚ) + 1) / 2 := by
    linarith
  unfold rankPct
  exact (div_lt_div_iff hnq hnq).mpr (mul_lt_mul_of_pos_right key hnq)

theorem sum_fillSentinel (col : List (Option ℚ)) :
    (fillSentinel col).sum =
      (col.filterMap id).sum + (-9999) * (col.countP (fun o => o.isNone)) := by
  induction col with
  | nil => simp [fillSentinel]
  | cons o t ih =>
    cases o with
    | none =>
      simp only [fillSentinel, List.map_cons, List.sum_cons, List.filterMap_cons,
        List.countP_cons, Option.isNone_none, id] at *
      push_cast
      rw [ih]
      simp only [Option.getD_none]
      ring
    | some v =>
      simp only [fillSentinel, List.map_cons, List.sum_cons, List.filterMap_cons,
        List.countP_cons, Option.isNone_some, id] at *
      push_cast
      rw [ih]
      simp [Option.getD]
      ring

theorem length_fillSentinel (col : List (Option ℚ)) :
    (fillSentinel col).length = col.length := by
  simp [fillSentinel]

theorem length_filterMap_add_countP (col : List (Option ℚ)) :
    col.length = (col.filterMap id).length + col.countP (fun o => o.isNone) := by
  induction col with
  | nil => simp
  | cons o t ih =>
    cases o <;> simp [List.countP_cons, ih] <;> omega

/-- Claim C10: the derived series of a numeric column are built from the
column with its missing values replaced by -9999; a missing row
participates as the value -9999 (it is not omitted: the percentile series
keeps the column's length), its percentile entry is the fractional rank
of -9999, which is strictly below the rank of every present value above
-9999; the z-score input, when the engine exposes one, is the same filled
series, and its mean differs from the mean of the present values whenever
a value is missing and the present mean is not itself -9999. -/
theorem C10_sentinel_derived :
    ∀ (col : List (Option ℚ)) (i : ℕ), col[i]? = some none →
      (deriveEntries col).raw[i]? = some (-9999) ∧
      (deriveEntries col).percentile.length = col.length ∧
      (deriveEntries col).percentile[i]? =
        some (rankPct (fillSentinel col) (-9999) * 100) ∧
      ((deriveEntries col).zscoreInput = none ∨
        (deriveEntries col).zscoreInput = some (fillSentinel col)) ∧
      (∀ (j : ℕ) (v : ℚ), col[j]? = some (some v) → -9999 < v →
        rankPct (fillSentinel col) (-9999) < rankPct (fillSentinel col) v) ∧
      (listMeanQ (col.filterMap id) ≠ -9999 → col.filterMap id ≠ [] →
        listMeanQ (fillSentinel col) ≠ listMeanQ (col.filterMap id)) := by
  intro col i hi
  have hraw : (fillSentinel col)[i]? = some (-9999) := by
    simp [fillSentinel, List.getElem?_map, hi]
  have hsent : (-9999 : ℚ) ∈ fillSentinel col := by
    have := List.getElem?_mem hraw
    exact this
  refine ⟨hraw, ?_, ?_, ?_, ?_, ?_⟩
  · simp [deriveEntries, fillSentinel]
  · simp only [deriveEntries]
    simp [List.getElem?_map, hraw]
  · simp only [deriveEntries]
    by_cases h : 1 < (fillSentinel col).dedup.length
    · right; simp [h]
    · left; simp [h]
  · intro j v hj hv
    have hmem : v ∈ fillSentinel col := by
      have : (fillSentinel col)[j]? = some v := by
        simp [fillSentinel, List.getElem?_map, hj]
      exact List.getElem?_mem this
    exact rankPct_strict _ _ _ hsent hmem hv
  · intro hmean hpres heq
    have hm : 0 < col.countP (fun o => o.isNone) := by
      rw [List.countP_pos]
      exact ⟨none, List.getElem?_mem hi, by simp⟩
    have hp : 0 < (col.filterMap id).length := List.length_pos.mpr hpres
    have hpq : (0 : ℚ) < ((col.filterMap id).length : ℚ) := by exact_mod_cast hp
    have hmq : (0 : ℚ) < (col.countP (fun o => o.isNone) : ℚ) := by exact_mod_cast hm
    have hlen : ((fillSentinel col).length : ℚ) =
        ((col.filterMap id).length : ℚ) + (col.countP (fun o => o.isNone) : ℚ) := by
      rw [length_fillSentinel]
      exact_mod_cast length_filterMap_add_countP col
    have heq2 : ((col.filterMap id).sum + (-9999) * (col.countP (fun o => o.isNone) : ℚ)) /
        (((col.filterMap id).length : ℚ) + (col.countP (fun o => o.isNone) : ℚ)) =
        (col.filterMap id).sum / ((col.filterMap id).length : ℚ) := by
      rw [← hlen, ← sum_fillSentinel]
      exact heq
    have hsum : ((col.filterMap id).length : ℚ) ≠ 0 := ne_of_gt hpq
    have htot : ((col.filterMap id).length : ℚ) +
        (col.countP (fun o => o.isNone) : ℚ) ≠ 0 := by positivity
    rw [div_eq_div_iff htot hsum] at heq2
    have hkey : (col.filterMap id).sum = -9999 * ((col.filterMap id).length : ℚ) := by
      have hc : (col.countP (fun o => o.isNone) : ℚ) *
            ((col.filterMap id).sum - -9999 * ((col.filterMap id).length : ℚ)) = 0 := by
        ring_nf
        ring_nf at heq2
        linarith
      rcases mul_eq_zero.mp hc with h | h
      · exact absurd h (ne_of_gt hmq)
      · linarith
    apply hmean
    unfold listMeanQ
    rw [hkey]
    field_simp

/-- Claim C6: every code the extractor returns is at least five characters
long and has at least one non-letter character; the page text
"Fund ABC123AU is available" yields exactly ABC123AU, and the page text
"XYZ" yields nothing. -/
theorem C6_extract_postfilter :
    (∀ (pages : List String) (c : String), c ∈ extract_apir_codes pages →
        5 ≤ c.length ∧ ∃ ch ∈ c.toList, ch.isAlpha = false) ∧
    extract_apir_codes ["Fund ABC123AU is available"] = ["ABC123AU"] ∧
    extract_apir_codes ["XYZ"] = [] := by
  refine ⟨?_, by decide, by decide⟩
  intro pages c hc
  unfold extract_apir_codes at hc
  rw [List.mem_filter] at hc
  obtain ⟨-, hp⟩ := hc
  rw [Bool.and_eq_true] at hp
  obtain ⟨h1, h2⟩ := hp
  have hlen : 5 ≤ c.length := by simpa using h1
  refine ⟨hlen, ?_⟩
  have h2' : pyIsAlpha c = false := by simpa using h2
  unfold pyIsAlpha at h2'
  rcases Bool.and_eq_false_iff.mp h2' with h | h
  · exfalso
    have : c.toList.isEmpty = true := by simpa using h
    have hz : c.toList = [] := by simpa using this
    have hl0 : c.length = c.toList.length := rfl
    rw [hz] at hl0
    simp at hl0
    omega
  · obtain ⟨ch, hmem, hch⟩ := List.all_eq_false.mp h
    exact ⟨ch, hmem, by simpa using hch⟩

/-- Witness for claim C6: the post-filter facts instantiated at the code
the extractor returns on the example page. -/
theorem C6_witness :
    5 ≤ "ABC123AU".length ∧ ∃ ch ∈ "ABC123AU".toList, ch.isAlpha = false :=
  C6_extract_postfilter.1 ["Fund ABC123AU is available"] "ABC123AU" (by decide)

/-- Witness for claim C10: on the column 1, missing, 2 the missing row's
percentile entry is present and is the rank of -9999 in the filled
series. -/
theorem C10_witness :
    (deriveEntries [some 1, none, some 2]).percentile[(1 : ℕ)]? =
      some (rankPct (fillSentinel [some 1, none, some 2]) (-9999) * 100) :=
  (C10_sentinel_derived [some 1, none, some 2] 1 rfl).2.2.1

end InvScrv2
